import Mathlib

/-!
Verification of the A02YYUW-to-MQTT bridge (src/main.py).

The development shallowly embeds the core of the program:
the frame decoder (the buffer-processing part of `_read_distance`),
the periodic publish gate inlined in `run`, the MQTT trigger callback
`_read_trigger_executed`, the run-loop error recovery policy, the
serial-lock discipline, and the shutdown sequence in the `finally`
block of `run`.  Byte buffers are lists of natural numbers; Python's
bitwise operations on non-negative integers are carried over exactly
(`&`, `<<`, `>>` become `&&&`, `<<<`, `>>>` on `Nat`).  Wall-clock
times (Python floats from `time.time()`) are modelled as rationals.
-/

namespace A02YYUW

/-- Constant from src/main.py line 28: the frame header sentinel byte. -/
def START_SEQUENCE_BYTE : Nat := 0xFF

/-- Constant from src/main.py line 26: minimal accepted distance (mm). -/
def READ_MIN_VALUE_MM : Nat := 30

/-- Constant from src/main.py line 27: maximal accepted distance (mm). -/
def READ_MAX_VALUE_MM : Nat := 4500

/-- Typed failure taxonomy of the bridge.  The five decode errors are the
`ValueError` cases raised in `_read_distance`; `readTimeout` is the
`TimeoutError` raised when the wait loop exceeds the read timeout. -/
inductive ReadError
  | insufficientData
  | noStartSequence
  | checksumMismatch
  | belowLowerLimit
  | aboveUpperLimit
  | readTimeout
  deriving DecidableEq, Repr

/-- Scan step for the start-sequence search of `_read_distance`
(src/main.py lines 154-159): the Python loop
`for i in reversed(range(length))` checks indices `n-1, n-2, ..., 0`
and stops at the first index whose byte is `START_SEQUENCE_BYTE` and
which has at least 4 bytes available from it. -/
def findLastStartAux (buf : List Nat) : Nat → Option Nat
  | 0 => none
  | n + 1 =>
    if buf[n]? = some START_SEQUENCE_BYTE ∧ n + 4 ≤ buf.length then some n
    else findLastStartAux buf n

/-- The rightmost index `i` with `buf[i] = 0xFF` and `i + 4 ≤ buf.length`,
as computed by the scan loop of `_read_distance`. -/
def findLastStart (buf : List Nat) : Option Nat :=
  findLastStartAux buf buf.length

/-- The 4-byte candidate frame extracted at index `i`
(src/main.py lines 164-167: `for i in range(last_data_index, last_data_index + 4)`). -/
def frameAt (buf : List Nat) (i : Nat) : List Nat :=
  [buf.getD i 0, buf.getD (i + 1) 0, buf.getD (i + 2) 0, buf.getD (i + 3) 0]

/-- Checksum and range validation of the extracted frame
(src/main.py lines 169-179). -/
def checkFrame (data : List Nat) : Except ReadError Nat :=
  let sum_check := (data.getD 0 0 + data.getD 1 0 + data.getD 2 0) &&& 0x00FF
  if sum_check ≠ data.getD 3 0 then .error .checksumMismatch
  else
    let distance_mm := (data.getD 1 0) <<< 8 + data.getD 2 0
    if distance_mm < READ_MIN_VALUE_MM then .error .belowLowerLimit
    else if distance_mm > READ_MAX_VALUE_MM then .error .aboveUpperLimit
    else .ok distance_mm

/-- The buffer-decoding portion of `_read_distance`
(src/main.py lines 148-179), applied to the buffer drained from the
serial device. -/
def read_distance (buf : List Nat) : Except ReadError Nat :=
  if buf.length < 4 then .error .insufficientData
  else
    match findLastStart buf with
    | none => .error .noStartSequence
    | some i => checkFrame (frameAt buf i)

/-- Predicate naming the scan condition of src/main.py line 157:
index `i` starts a complete candidate frame. -/
def isStart (buf : List Nat) (i : Nat) : Prop :=
  buf[i]? = some START_SEQUENCE_BYTE ∧ i + 4 ≤ buf.length

theorem isStart_lt {buf : List Nat} {i : Nat} (h : isStart buf i) :
    i < buf.length := by
  have := h.2
  omega

theorem findLastStartAux_eq_some {buf : List Nat} :
    ∀ n i, findLastStartAux buf n = some i →
      isStart buf i ∧ i < n ∧ ∀ j, i < j → j < n → ¬ isStart buf j := by
  intro n
  induction n with
  | zero => intro i h; simp [findLastStartAux] at h
  | succ n ih =>
    intro i h
    rw [findLastStartAux] at h
    by_cases hc : buf[n]? = some START_SEQUENCE_BYTE ∧ n + 4 ≤ buf.length
    · rw [if_pos hc] at h
      injection h with h'
      subst h'
      exact ⟨hc, Nat.lt_succ_self n, fun j hij hjn _ => by omega⟩
    · rw [if_neg hc] at h
      obtain ⟨h1, h2, h3⟩ := ih i h
      refine ⟨h1, by omega, ?_⟩
      intro j hij hjn hsj
      by_cases hjn' : j = n
      · subst hjn'; exact hc hsj
      · exact h3 j hij (by omega) hsj

theorem findLastStartAux_complete {buf : List Nat} :
    ∀ n i, i < n → isStart buf i → (∀ j, i < j → j < n → ¬ isStart buf j) →
      findLastStartAux buf n = some i := by
  intro n
  induction n with
  | zero => intro i h _ _; omega
  | succ n ih =>
    intro i hi hs hmax
    rw [findLastStartAux]
    by_cases hc : buf[n]? = some START_SEQUENCE_BYTE ∧ n + 4 ≤ buf.length
    · rw [if_pos hc]
      have hin : i = n := by
        by_contra hne
        exact hmax n (by omega) (Nat.lt_succ_self n) hc
      rw [hin]
    · rw [if_neg hc]
      have hin : i ≠ n := fun h => hc (h ▸ hs)
      exact ih i (by omega) hs (fun j hj1 hj2 => hmax j hj1 (by omega))

theorem findLastStartAux_none {buf : List Nat} :
    ∀ n, findLastStartAux buf n = none → ∀ i, i < n → ¬ isStart buf i := by
  intro n
  induction n with
  | zero => intro _ i h; omega
  | succ n ih =>
    intro h i hi hsi
    rw [findLastStartAux] at h
    by_cases hc : buf[n]? = some START_SEQUENCE_BYTE ∧ n + 4 ≤ buf.length
    · rw [if_pos hc] at h; simp at h
    · rw [if_neg hc] at h
      by_cases hin : i = n
      · subst hin; exact hc hsi
      · exact ih h i (by omega) hsi

theorem findLastStart_eq_some_iff (buf : List Nat) (i : Nat) :
    findLastStart buf = some i ↔ (isStart buf i ∧ ∀ j, isStart buf j → j ≤ i) := by
  constructor
  · intro h
    obtain ⟨h1, _, h3⟩ := findLastStartAux_eq_some buf.length i h
    refine ⟨h1, fun j hj => ?_⟩
    by_contra hji
    exact h3 j (by omega) (isStart_lt hj) hj
  · rintro ⟨h1, h2⟩
    refine findLastStartAux_complete buf.length i (isStart_lt h1) h1 ?_
    intro j hij hjl hsj
    exact absurd (h2 j hsj) (by omega)

theorem findLastStart_eq_none_iff (buf : List Nat) :
    findLastStart buf = none ↔ ∀ i, ¬ isStart buf i := by
  constructor
  · intro h i hsi
    exact findLastStartAux_none buf.length h i (isStart_lt hsi) hsi
  · intro h
    cases hfl : findLastStart buf with
    | none => rfl
    | some i => exact absurd (findLastStartAux_eq_some buf.length i hfl).1 (h i)

theorem read_distance_eq_checkFrame {buf : List Nat} {i : Nat}
    (h : findLastStart buf = some i) :
    read_distance buf = checkFrame (frameAt buf i) := by
  have hs := (findLastStartAux_eq_some buf.length i h).1
  have h4 : ¬ buf.length < 4 := by
    have := hs.2
    omega
  unfold read_distance
  rw [if_neg h4, h]

theorem checkFrame_ne_noStartSequence (data : List Nat) :
    checkFrame data ≠ .error .noStartSequence := by
  unfold checkFrame
  intro h
  dsimp only at h
  split at h
  · simp at h
  · split at h
    · simp at h
    · split at h <;> simp at h

theorem and_255_eq_mod (x : Nat) : x &&& 255 = x % 256 := by
  have h : (255 : Nat) = 2 ^ 8 - 1 := by norm_num
  rw [h, Nat.and_pow_two_sub_one_eq_mod]

theorem shiftLeft_lor_eq_add (b1 b2 : Nat) (h : b2 < 256) :
    b1 <<< 8 ||| b2 = b1 <<< 8 + b2 := by
  rw [Nat.shiftLeft_eq]
  have h2 : b2 < 2 ^ 8 := by omega
  have hmm := Nat.mul_add_lt_is_or h2 b1
  rw [Nat.mul_comm b1 (2 ^ 8)]
  exact hmm.symm

theorem checkFrame_cons (b0 b1 b2 b3 : Nat) :
    checkFrame [b0, b1, b2, b3] =
      if (b0 + b1 + b2) % 256 ≠ b3 then .error .checksumMismatch
      else if b1 <<< 8 + b2 < 30 then .error .belowLowerLimit
      else if b1 <<< 8 + b2 > 4500 then .error .aboveUpperLimit
      else .ok (b1 <<< 8 + b2) := by
  unfold checkFrame
  dsimp only
  rw [show ([b0, b1, b2, b3] : List Nat).getD 0 0 = b0 from rfl,
    show ([b0, b1, b2, b3] : List Nat).getD 1 0 = b1 from rfl,
    show ([b0, b1, b2, b3] : List Nat).getD 2 0 = b2 from rfl,
    show ([b0, b1, b2, b3] : List Nat).getD 3 0 = b3 from rfl,
    and_255_eq_mod, READ_MIN_VALUE_MM, READ_MAX_VALUE_MM]

/-- Claim C1: for every byte buffer of length at least 4, the frame decoder
selects as its candidate frame the 4 bytes starting at the rightmost index
`i` such that the byte at `i` equals 0xFF and `i + 4 ≤ length`; if no such
index exists, decoding fails with NoStartSequence; for buffers with several
such positions, the rightmost one is chosen. -/
theorem decode_selects_rightmost_start (buf : List Nat) (h4 : 4 ≤ buf.length) :
    (∀ i, findLastStart buf = some i ↔ (isStart buf i ∧ ∀ j, isStart buf j → j ≤ i))
    ∧ (read_distance buf = .error .noStartSequence ↔ ∀ i, ¬ isStart buf i)
    ∧ (∀ i, findLastStart buf = some i → read_distance buf = checkFrame (frameAt buf i)) := by
  refine ⟨fun i => findLastStart_eq_some_iff buf i, ⟨?_, ?_⟩,
    fun i h => read_distance_eq_checkFrame h⟩
  · intro h
    cases hfl : findLastStart buf with
    | none => exact (findLastStart_eq_none_iff buf).mp hfl
    | some i =>
      rw [read_distance_eq_checkFrame hfl] at h
      exact absurd h (checkFrame_ne_noStartSequence _)
  · intro h
    have hnone : findLastStart buf = none := (findLastStart_eq_none_iff buf).mpr h
    unfold read_distance
    rw [if_neg (by omega), hnone]

/-- Witness for Claim C1 on a concrete buffer holding two complete frames;
the rightmost complete frame starts at index 4. -/
theorem decode_selects_rightmost_start_witness :
    4 ≤ ([0xFF, 0, 40, 0x27, 0xFF, 0, 50, 0x31] : List Nat).length
    ∧ ((∀ i, findLastStart [0xFF, 0, 40, 0x27, 0xFF, 0, 50, 0x31] = some i ↔
          (isStart [0xFF, 0, 40, 0x27, 0xFF, 0, 50, 0x31] i
            ∧ ∀ j, isStart [0xFF, 0, 40, 0x27, 0xFF, 0, 50, 0x31] j → j ≤ i))
      ∧ (read_distance [0xFF, 0, 40, 0x27, 0xFF, 0, 50, 0x31] = .error .noStartSequence ↔
          ∀ i, ¬ isStart [0xFF, 0, 40, 0x27, 0xFF, 0, 50, 0x31] i)
      ∧ (∀ i, findLastStart [0xFF, 0, 40, 0x27, 0xFF, 0, 50, 0x31] = some i →
          read_distance [0xFF, 0, 40, 0x27, 0xFF, 0, 50, 0x31] =
            checkFrame (frameAt [0xFF, 0, 40, 0x27, 0xFF, 0, 50, 0x31] i))) :=
  ⟨by decide, decode_selects_rightmost_start [0xFF, 0, 40, 0x27, 0xFF, 0, 50, 0x31] (by decide)⟩

/-- Claim C2: for every byte buffer whose selected candidate frame is
the 4 bytes b0 b1 b2 b3, decoding fails with ChecksumMismatch iff
(b0 + b1 + b2) mod 256 differs from b3; otherwise, with distance equal
to b1 shifted left by 8 or-ed with b2, decoding fails with BelowLowerLimit
iff the distance is below 30, fails with AboveUpperLimit iff it exceeds
4500, and returns exactly the distance when it lies in the closed
interval from 30 to 4500. -/
theorem decode_checksum_and_bounds (buf : List Nat) (i b0 b1 b2 b3 : Nat)
    (hbytes : ∀ b ∈ buf, b < 256)
    (hi : findLastStart buf = some i)
    (hf : frameAt buf i = [b0, b1, b2, b3]) :
    (read_distance buf = .error .checksumMismatch ↔ (b0 + b1 + b2) % 256 ≠ b3)
    ∧ ((b0 + b1 + b2) % 256 = b3 →
        (read_distance buf = .error .belowLowerLimit ↔ b1 <<< 8 ||| b2 < 30)
        ∧ (read_distance buf = .error .aboveUpperLimit ↔ b1 <<< 8 ||| b2 > 4500)
        ∧ (30 ≤ b1 <<< 8 ||| b2 → b1 <<< 8 ||| b2 ≤ 4500 →
            read_distance buf = .ok (b1 <<< 8 ||| b2))) := by
  have hs := (findLastStartAux_eq_some buf.length i hi).1
  have hlen : i + 2 < buf.length := by
    have := hs.2
    omega
  have hgd : buf.getD (i + 2) 0 = buf[i + 2] := by
    rw [List.getD_eq_getElem?_getD, List.getElem?_eq_getElem hlen]
    rfl
  have hb2v : buf.getD (i + 2) 0 = b2 := congrArg (fun l => l.getD 2 0) hf
  have hb2 : b2 < 256 := by
    rw [← hb2v, hgd]
    exact hbytes _ (List.getElem_mem hlen)
  have hrd : read_distance buf =
      if (b0 + b1 + b2) % 256 ≠ b3 then .error .checksumMismatch
      else if b1 <<< 8 + b2 < 30 then .error .belowLowerLimit
      else if b1 <<< 8 + b2 > 4500 then .error .aboveUpperLimit
      else .ok (b1 <<< 8 + b2) := by
    rw [read_distance_eq_checkFrame hi, hf, checkFrame_cons]
  rw [shiftLeft_lor_eq_add b1 b2 hb2, hrd]
  by_cases hcs : (b0 + b1 + b2) % 256 ≠ b3
  · rw [if_pos hcs]
    exact ⟨⟨fun _ => hcs, fun _ => rfl⟩, fun heq => absurd heq hcs⟩
  · have hcs' : (b0 + b1 + b2) % 256 = b3 := not_not.mp hcs
    rw [if_neg hcs]
    refine ⟨⟨?_, fun hne => absurd hcs' hne⟩, fun _ => ⟨⟨?_, ?_⟩, ⟨?_, ?_⟩, ?_⟩⟩
    · intro h
      split at h
      · simp at h
      · split at h <;> simp at h
    · intro h
      split at h
      · assumption
      · split at h <;> simp at h
    · intro h
      rw [if_pos h]
    · intro h
      split at h
      · simp at h
      · split at h
        · omega
        · simp at h
    · intro h
      rw [if_neg (show ¬ b1 <<< 8 + b2 < 30 by omega), if_pos h]
    · intro h1 h2
      rw [if_neg (show ¬ b1 <<< 8 + b2 < 30 by omega),
        if_neg (show ¬ b1 <<< 8 + b2 > 4500 by omega)]

/-- Witness for Claim C2 on the concrete buffer 0xFF 0 40 0x27 with
candidate frame starting at index 0. -/
theorem decode_checksum_and_bounds_witness :
    (∀ b ∈ ([0xFF, 0, 40, 0x27] : List Nat), b < 256)
    ∧ findLastStart [0xFF, 0, 40, 0x27] = some 0
    ∧ frameAt [0xFF, 0, 40, 0x27] 0 = [0xFF, 0, 40, 0x27]
    ∧ ((read_distance [0xFF, 0, 40, 0x27] = .error .checksumMismatch ↔
          (0xFF + 0 + 40) % 256 ≠ 0x27)
      ∧ ((0xFF + 0 + 40) % 256 = 0x27 →
          (read_distance [0xFF, 0, 40, 0x27] = .error .belowLowerLimit ↔ 0 <<< 8 ||| 40 < 30)
          ∧ (read_distance [0xFF, 0, 40, 0x27] = .error .aboveUpperLimit ↔ 0 <<< 8 ||| 40 > 4500)
          ∧ (30 ≤ 0 <<< 8 ||| 40 → 0 <<< 8 ||| 40 ≤ 4500 →
              read_distance [0xFF, 0, 40, 0x27] = .ok (0 <<< 8 ||| 40)))) :=
  ⟨by decide, by decide, by decide,
    decode_checksum_and_bounds [0xFF, 0, 40, 0x27] 0 0xFF 0 40 0x27
      (by decide) (by decide) (by decide)⟩

/-- Claim C3: for every distance d between 30 and 4500, decoding the 4-byte
buffer 0xFF, d shifted right by 8, d masked to its low byte, and the checksum
byte succeeds and returns exactly d. -/
theorem decode_roundTrip (d : Nat) (h1 : 30 ≤ d) (h2 : d ≤ 4500) :
    read_distance [0xFF, d >>> 8, d &&& 0xFF, (0xFF + (d >>> 8) + (d &&& 0xFF)) &&& 0xFF]
      = .ok d := by
  have hsr : d >>> 8 = d / 256 := by rw [Nat.shiftRight_eq_div_pow]
  simp only [and_255_eq_mod, hsr]
  have hfl : findLastStart [255, d / 256, d % 256, (255 + d / 256 + d % 256) % 256]
      = some 0 := by
    apply (findLastStart_eq_some_iff _ 0).mpr
    refine ⟨⟨rfl, by simp⟩, ?_⟩
    intro j hj
    have hj2 := hj.2
    simp only [List.length_cons, List.length_nil] at hj2
    omega
  rw [read_distance_eq_checkFrame hfl]
  rw [show frameAt [255, d / 256, d % 256, (255 + d / 256 + d % 256) % 256] 0 =
      [255, d / 256, d % 256, (255 + d / 256 + d % 256) % 256] from rfl]
  rw [checkFrame_cons]
  have hsl : (d / 256) <<< 8 + d % 256 = d := by
    rw [Nat.shiftLeft_eq]
    have h256 : (2 : Nat) ^ 8 = 256 := by norm_num
    rw [h256]
    omega
  rw [if_neg (show ¬ (255 + d / 256 + d % 256) % 256 ≠ (255 + d / 256 + d % 256) % 256
      from fun h => h rfl)]
  rw [hsl, if_neg (by omega), if_neg (by omega)]

/-- Witness for Claim C3 at the boundary distance 30. -/
theorem decode_roundTrip_witness :
    30 ≤ 30 ∧ 30 ≤ 4500
    ∧ read_distance [0xFF, 30 >>> 8, 30 &&& 0xFF, (0xFF + (30 >>> 8) + (30 &&& 0xFF)) &&& 0xFF]
      = .ok 30 :=
  ⟨by decide, by decide, decode_roundTrip 30 (by decide) (by decide)⟩

/-- Claim C8: every byte buffer with fewer than 4 bytes fails to decode
with InsufficientData. -/
theorem short_buffer_insufficient (buf : List Nat) (h : buf.length < 4) :
    read_distance buf = .error .insufficientData := by
  unfold read_distance
  rw [if_pos h]

/-- Witness for Claim C8 on the empty buffer. -/
theorem short_buffer_insufficient_witness :
    ([] : List Nat).length < 4 ∧ read_distance [] = .error .insufficientData :=
  ⟨by decide, short_buffer_insufficient [] (by decide)⟩

/-- Periodic publish gate inlined in the run loop
(src/main.py lines 220-222): given the configured push interval, the stored
last-published timestamp and the current time, decide whether to publish and
return the updated stored timestamp.  Wall-clock instants are rationals. -/
def shouldPublishPeriodic (pushInterval lastMqttPushTime now : ℚ) : Bool × ℚ :=
  if now - lastMqttPushTime > pushInterval then (true, now) else (false, lastMqttPushTime)

/-- Initial value of the stored timestamp, src/main.py line 215:
last_mqtt_push_time is set to 0.0 before the loop starts. -/
def initialLastMqttPushTime : ℚ := 0

/-- Claim C4: the periodic publish gate returns true and updates the stored
last-published timestamp to the current time iff the elapsed time since the
stored timestamp exceeds the configured interval; otherwise it returns false
and leaves the stored timestamp unchanged. -/
theorem publish_gate_contract (pushInterval lastPush now : ℚ) :
    (shouldPublishPeriodic pushInterval lastPush now = (true, now) ↔
      now - lastPush > pushInterval)
    ∧ (¬ now - lastPush > pushInterval →
      shouldPublishPeriodic pushInterval lastPush now = (false, lastPush)) := by
  unfold shouldPublishPeriodic
  by_cases h : now - lastPush > pushInterval
  · rw [if_pos h]
    exact ⟨⟨fun _ => h, fun _ => rfl⟩, fun hn => absurd h hn⟩
  · rw [if_neg h]
    refine ⟨⟨fun heq => ?_, fun hgt => absurd hgt h⟩, fun _ => rfl⟩
    exact absurd (congrArg Prod.fst heq) (by simp)

/-- Witness for Claim C4: at interval 60, stored timestamp 0 and current
time 100, the gate publishes and stores 100. -/
theorem publish_gate_contract_witness :
    shouldPublishPeriodic 60 0 100 = (true, 100) :=
  (publish_gate_contract 60 0 100).1.mpr (by norm_num)

/-- Claim C10: the run loop initializes the stored last-published timestamp
to 0, so the first successful periodic read is published for every current
time greater than the configured push interval. -/
theorem initial_push_time_publishes :
    initialLastMqttPushTime = 0
    ∧ ∀ pushInterval now : ℚ, pushInterval < now →
        shouldPublishPeriodic pushInterval initialLastMqttPushTime now = (true, now) := by
  refine ⟨rfl, ?_⟩
  intro pushInterval now h
  unfold shouldPublishPeriodic initialLastMqttPushTime
  rw [if_pos (by linarith)]

/-- Witness for Claim C10: with interval 60 the first read at time 61 is
published. -/
theorem initial_push_time_publishes_witness :
    (60 : ℚ) < 61
    ∧ shouldPublishPeriodic 60 initialLastMqttPushTime 61 = (true, 61) :=
  ⟨by norm_num, initial_push_time_publishes.2 60 61 (by norm_num)⟩

/-- Observable actions of the MQTT trigger callback. -/
inductive TriggerAction
  | readSensor
  | publishValue (v : Nat)
  | publishTrigger (payload : String)
  deriving DecidableEq, Repr

/-- The MQTT trigger callback `_read_trigger_executed`
(src/main.py lines 181-195) as a function from the message payload and the
outcome of the serial read to the list of actions it performs: payloads other
than the string 1 do nothing; a failing read performs only the read; a
successful read publishes the measurement on the value topic and then the
string 0 on the trigger topic. -/
def read_trigger_executed (payload : String) (readResult : Except ReadError Nat) :
    List TriggerAction :=
  if payload = "1" then
    match readResult with
    | .error _ => [TriggerAction.readSensor]
    | .ok d => [TriggerAction.readSensor, TriggerAction.publishValue d,
        TriggerAction.publishTrigger "0"]
  else []

/-- The trigger callback as a step on the bridge state: the callback has no
access to the run loop's last_mqtt_push_time local variable, so the periodic
gate state passes through unchanged. -/
def readTriggerStep (payload : String) (readResult : Except ReadError Nat)
    (lastMqttPushTime : ℚ) : ℚ × List TriggerAction :=
  (lastMqttPushTime, read_trigger_executed payload readResult)

/-- Claim C5: on a trigger message with payload 1 and a failing read, nothing
is published at all; with payload 1 and a successful read, the measurement is
published to the value topic and then 0 to the trigger topic, without
consulting or updating the periodic gate; any other payload causes no read
and no publish. -/
theorem trigger_contract (payload : String) (r : Except ReadError Nat) (lastPush : ℚ) :
    (payload = "1" → ∀ e, r = .error e →
      read_trigger_executed payload r = [TriggerAction.readSensor])
    ∧ (payload = "1" → ∀ d, r = .ok d →
      read_trigger_executed payload r = [TriggerAction.readSensor,
          TriggerAction.publishValue d, TriggerAction.publishTrigger "0"]
        ∧ (readTriggerStep payload r lastPush).1 = lastPush)
    ∧ (payload ≠ "1" → read_trigger_executed payload r = []) := by
  refine ⟨?_, ?_, ?_⟩
  · intro hp e hr
    subst hp
    subst hr
    unfold read_trigger_executed
    rw [if_pos rfl]
  · intro hp d hr
    subst hp
    subst hr
    constructor
    · unfold read_trigger_executed
      rw [if_pos rfl]
    · rfl
  · intro hp
    unfold read_trigger_executed
    rw [if_neg hp]

/-- Witness for Claim C5: payload 1 with a successful read of 100mm. -/
theorem trigger_contract_witness :
    read_trigger_executed "1" (.ok 100) = [TriggerAction.readSensor,
        TriggerAction.publishValue 100, TriggerAction.publishTrigger "0"]
      ∧ (readTriggerStep "1" (.ok 100) 0).1 = 0 :=
  (trigger_contract "1" (.ok 100) 0).2.1 rfl 100 rfl

/-- Outcome of one iteration of the run loop of src/main.py lines 217-229:
what was published, the stored timestamp afterwards, which error was logged,
how long the loop sleeps before the next iteration, and whether the loop
keeps running. -/
structure IterOutcome where
  pushedValue : Option Nat
  newLastPush : ℚ
  loggedError : Option ReadError
  sleepSeconds : ℚ
  loopContinues : Bool
  deriving DecidableEq, Repr

/-- Discriminates the TimeoutError raised by the wait loop of
`_read_distance` from the five ValueError decode failures. -/
def isTimeoutError : ReadError → Bool
  | .readTimeout => true
  | _ => false

/-- One iteration of the body of the while loop in `run`
(src/main.py lines 217-229), as a function of the read outcome and the
current time: a successful read consults the periodic gate and sleeps for
the read interval; a ValueError is logged and the loop sleeps 1 second;
a TimeoutError is logged and the loop sleeps 5 seconds. -/
def runLoopIter (pushInterval readInterval lastPush now : ℚ)
    (r : Except ReadError Nat) : IterOutcome :=
  match r with
  | .ok d =>
    let gate := shouldPublishPeriodic pushInterval lastPush now
    ⟨if gate.1 then some d else none, gate.2, none, readInterval, true⟩
  | .error e =>
    if isTimeoutError e then ⟨none, lastPush, some e, 5, true⟩
    else ⟨none, lastPush, some e, 1, true⟩

/-- Claim C6: for every run-loop iteration in which the read fails with one
of the six taxonomy errors, the error is logged, nothing is published, the
stored gate timestamp is unchanged, the loop continues, and the pause before
the next iteration is 5 seconds for ReadTimeout and 1 second for the five
decode errors. -/
theorem loop_error_recovery (pushInterval readInterval lastPush now : ℚ)
    (e : ReadError) :
    (runLoopIter pushInterval readInterval lastPush now (.error e)).pushedValue = none
    ∧ (runLoopIter pushInterval readInterval lastPush now (.error e)).loggedError = some e
    ∧ (runLoopIter pushInterval readInterval lastPush now (.error e)).newLastPush = lastPush
    ∧ (runLoopIter pushInterval readInterval lastPush now (.error e)).loopContinues = true
    ∧ (runLoopIter pushInterval readInterval lastPush now (.error e)).sleepSeconds =
        (if e = .readTimeout then 5 else 1) := by
  cases e <;> simp [runLoopIter, isTimeoutError]

/-- The two logically concurrent callers of `_read_distance`: the periodic
run loop and the MQTT trigger callback. -/
inductive Actor
  | periodic
  | trigger
  deriving DecidableEq, Repr

/-- Program position of an actor with respect to the serial read:
either idle, or inside the with-block of src/main.py lines 141-179
(the whole wait-for-bytes, drain and decode sequence). -/
inductive Phase
  | idle
  | reading
  deriving DecidableEq, Repr

/-- Shared state of the serial channel guard: the position of each actor and
the holder of threading.Lock `serial_lock` (src/main.py line 96),
none when the lock is free. -/
structure GuardState where
  periodicPhase : Phase
  triggerPhase : Phase
  lockHolder : Option Actor
  deriving DecidableEq, Repr

def phaseOf (s : GuardState) : Actor → Phase
  | .periodic => s.periodicPhase
  | .trigger => s.triggerPhase

/-- State after actor a enters the with-block, holding the lock. -/
def acquireTarget (s : GuardState) (a : Actor) : GuardState :=
  match a with
  | .periodic => ⟨Phase.reading, s.triggerPhase, some Actor.periodic⟩
  | .trigger => ⟨s.periodicPhase, Phase.reading, some Actor.trigger⟩

/-- State after actor a leaves the with-block, releasing the lock. -/
def releaseTarget (s : GuardState) (a : Actor) : GuardState :=
  match a with
  | .periodic => ⟨Phase.idle, s.triggerPhase, none⟩
  | .trigger => ⟨s.periodicPhase, Phase.idle, none⟩

/-- Transition relation of the serial channel guard.  Acquiring models
`with self.serial_lock:` entry: it blocks until the lock is free, so the step
is enabled only when no one holds the lock.  Releasing models leaving the
with-block, which Python performs on every exit path, so the step is
parameterized by an arbitrary outcome (measurement, decode failure or
timeout) and is always enabled while the actor is inside. -/
inductive GuardStep : GuardState → GuardState → Prop
  | acquire (s : GuardState) (a : Actor) :
      phaseOf s a = Phase.idle → s.lockHolder = none →
      GuardStep s (acquireTarget s a)
  | release (s : GuardState) (a : Actor) (outcome : Except ReadError Nat) :
      phaseOf s a = Phase.reading →
      GuardStep s (releaseTarget s a)

/-- Initial state: both actors idle, lock free. -/
def initGuard : GuardState := ⟨Phase.idle, Phase.idle, none⟩

/-- States reachable from the initial state by guard transitions. -/
def GuardReachable (s : GuardState) : Prop :=
  Relation.ReflTransGen GuardStep initGuard s

/-- Inductive invariant: an actor is inside the read region exactly when it
holds the lock. -/
def GuardInv (s : GuardState) : Prop :=
  (s.periodicPhase = Phase.reading ↔ s.lockHolder = some Actor.periodic)
  ∧ (s.triggerPhase = Phase.reading ↔ s.lockHolder = some Actor.trigger)

theorem guardInv_init : GuardInv initGuard := by
  constructor <;> simp [initGuard]

theorem guardInv_step {s s' : GuardState} (h : GuardInv s) (hs : GuardStep s s') :
    GuardInv s' := by
  cases hs with
  | acquire a hidle hfree =>
    have hp : s.periodicPhase ≠ Phase.reading := by
      intro hx
      have hc := h.1.mp hx
      rw [hfree] at hc
      exact Option.noConfusion hc
    have ht : s.triggerPhase ≠ Phase.reading := by
      intro hx
      have hc := h.2.mp hx
      rw [hfree] at hc
      exact Option.noConfusion hc
    cases a
    · exact ⟨by simp [acquireTarget], by simp [acquireTarget, ht]⟩
    · exact ⟨by simp [acquireTarget, hp], by simp [acquireTarget]⟩
  | release a outcome hread =>
    cases a
    · have hold : s.lockHolder = some Actor.periodic := h.1.mp hread
      have ht : s.triggerPhase ≠ Phase.reading := by
        intro hx
        have hc := h.2.mp hx
        rw [hold] at hc
        simp at hc
      exact ⟨by simp [releaseTarget], by simp [releaseTarget, ht]⟩
    · have hold : s.lockHolder = some Actor.trigger := h.2.mp hread
      have hp : s.periodicPhase ≠ Phase.reading := by
        intro hx
        have hc := h.1.mp hx
        rw [hold] at hc
        simp at hc
      exact ⟨by simp [releaseTarget, hp], by simp [releaseTarget]⟩

theorem guardInv_reachable {s : GuardState} (h : GuardReachable s) : GuardInv s := by
  unfold GuardReachable at h
  induction h with
  | refl => exact guardInv_init
  | tail _ hstep ih => exact guardInv_step ih hstep

/-- Claim C7: in every reachable state of the serial channel guard, at most
one actor is inside the wait-drain-decode region, so a trigger-driven read
and a periodic read never interleave on the shared device; moreover an actor
inside the region can always leave it with any outcome, and doing so frees
the lock. -/
theorem serial_mutual_exclusion (s : GuardState) (h : GuardReachable s) :
    ¬ (s.periodicPhase = Phase.reading ∧ s.triggerPhase = Phase.reading)
    ∧ ∀ (a : Actor) (outcome : Except ReadError Nat), phaseOf s a = Phase.reading →
        ∃ s', GuardStep s s' ∧ s'.lockHolder = none ∧ phaseOf s' a = Phase.idle := by
  have hinv := guardInv_reachable h
  constructor
  · rintro ⟨hp, ht⟩
    have h1 := hinv.1.mp hp
    have h2 := hinv.2.mp ht
    rw [h1] at h2
    simp at h2
  · intro a outcome hread
    refine ⟨releaseTarget s a, GuardStep.release s a outcome hread, ?_, ?_⟩
    · cases a <;> rfl
    · cases a <;> rfl

/-- Witness for Claim C7 at the initial state of the guard. -/
theorem serial_mutual_exclusion_witness :
    ¬ (initGuard.periodicPhase = Phase.reading ∧ initGuard.triggerPhase = Phase.reading)
    ∧ ∀ (a : Actor) (outcome : Except ReadError Nat),
        phaseOf initGuard a = Phase.reading →
        ∃ s', GuardStep initGuard s' ∧ s'.lockHolder = none ∧ phaseOf s' a = Phase.idle :=
  serial_mutual_exclusion initGuard Relation.ReflTransGen.refl

/-- Resource-release actions of the shutdown sequence. -/
inductive ShutdownAction
  | closeSerial
  | disconnectMqtt
  deriving DecidableEq, Repr

/-- Translation of a Python try-except-pass around a release operation
(src/main.py lines 235-238 and 241-244): whatever the operation's outcome,
the exception is swallowed and execution continues normally. -/
def tryExceptPass (op : Except String Unit) : Except String Unit :=
  match op with
  | .ok _ => .ok ()
  | .error _ => .ok ()

/-- The finally-block of `run` (src/main.py lines 232-244).  Each resource is
an option: none models the is-None check skipping the release; some carries
the outcome the release operation would have (ok or a raised exception).
The two guarded releases are sequenced so that an escaping exception in the
first would propagate and skip the second; the result lists the release
actions performed. -/
def shutdownSequence (ser mqttClient : Option (Except String Unit)) :
    Except String (List ShutdownAction) :=
  let serStep : Except String (List ShutdownAction) :=
    match ser with
    | some closeResult =>
      match tryExceptPass closeResult with
      | .ok _ => .ok [ShutdownAction.closeSerial]
      | .error e => .error e
    | none => .ok []
  let mqttStep : Except String (List ShutdownAction) :=
    match mqttClient with
    | some disconnectResult =>
      match tryExceptPass disconnectResult with
      | .ok _ => .ok [ShutdownAction.disconnectMqtt]
      | .error e => .error e
    | none => .ok []
  match serStep with
  | .error e => .error e
  | .ok serActions =>
    match mqttStep with
    | .error e => .error e
    | .ok mqttActions => .ok (serActions ++ mqttActions)

/-- Claim C9: shutdown releases the serial connection and the messaging
connection independently and best-effort: whatever outcome each release
operation has, no exception escapes the shutdown sequence and each present
resource is released regardless of the other release failing. -/
theorem shutdown_releases_both (ser mqttClient : Option (Except String Unit)) :
    shutdownSequence ser mqttClient =
      .ok ((match ser with
            | some _ => [ShutdownAction.closeSerial]
            | none => [])
        ++ (match mqttClient with
            | some _ => [ShutdownAction.disconnectMqtt]
            | none => [])) := by
  cases ser with
  | none =>
    cases mqttClient with
    | none => rfl
    | some d => cases d <;> rfl
  | some c =>
    cases c <;>
      (cases mqttClient with
       | none => rfl
       | some d => cases d <;> rfl)

end A02YYUW
